import Mathlib

/-!
Verification of the `BaseProtocol` data-aggregation engine of BioPsyKit
(`src/biopsykit/protocols/base.py`).

The embedding models Python values and control flow shallowly:

* Python dictionaries are association lists (`List (String × α)`); assignment
  `d[k] = v` is `dictInsert`, `d.update(other)` is `dictUpdate`, subscription
  `d[k]` is `subscript` (raising `KeyError` on a missing key).
* Raised exceptions are modelled with `Except`.  A method of the `BaseProtocol`
  class returns `Except (PyError × ProtocolState Table) (ProtocolState Table)`:
  on success the new object state, on an exception the exception together with
  the object state at the moment the exception propagates (Python mutations
  performed before the raise survive on the object).
* Leaf time-series dataframes are opaque (`Table` is a type parameter); the
  external transformer functions imported from `biopsykit.utils.data_processing`
  are not part of the given sources and are therefore taken as an abstract
  `Transformers` structure of functions that may raise.
* MultiIndex dataframes produced by the HRV computation are modelled by their
  index structure (`MIFrame`): the list of index-level names plus the index
  tuples of the rows.
-/

/-- Classes of Python exceptions raised by the modelled code.  `validationError`
carries the identifying keys (saliva type, subject, ...) that the error message
names. -/
inductive PyError where
  | keyError (key : String)
  | attributeError (attr : String)
  | indexError
  | typeError
  | valueError
  | validationError (keys : List String)
  | configurationError
  deriving DecidableEq, Repr

/-- Lookup in a Python dictionary modelled as an association list (first match;
keys of a real Python dict are unique). -/
def dictLookup {α : Type} : List (String × α) → String → Option α
  | [], _ => none
  | (k0, v0) :: rest, k => if k0 = k then some v0 else dictLookup rest k

/-- Python `d[k] = v`: replace the value at an existing key in place, otherwise
append the new binding at the end (insertion order is preserved). -/
def dictInsert {α : Type} : List (String × α) → String → α → List (String × α)
  | [], k, v => [(k, v)]
  | (k0, v0) :: rest, k, v =>
    if k0 = k then (k, v) :: rest else (k0, v0) :: dictInsert rest k v

/-- Python `d.update(other)`: insert the bindings of `other` in order. -/
def dictUpdate {α : Type} (d other : List (String × α)) : List (String × α) :=
  other.foldl (fun acc kv => dictInsert acc kv.1 kv.2) d

/-- Python `d[k]` on a dictionary: `KeyError` when the key is absent. -/
def subscript {α : Type} (d : List (String × α)) (k : String) : Except PyError α :=
  match dictLookup d k with
  | some v => .ok v
  | none => .error (.keyError k)

/-- Index structure of a pandas dataframe with a (possibly multi-level) index:
the list of index-level names (`None` for an unnamed level) and the index tuple
of each row.  This is all the HRV assembly code inspects. -/
structure MIFrame where
  levelNames : List (Option String)
  rows : List (List String)
  deriving DecidableEq, Repr

/-- A Python value as it flows through the protocol pipelines: `None`, strings,
integers, lists of strings, opaque leaf time-series dataframes (`table`),
index-modelled result dataframes (`frame`) and nested dictionaries. -/
inductive PyObj (Table : Type) where
  | pynone
  | str (s : String)
  | int (n : Int)
  | strList (xs : List String)
  | table (t : Table)
  | frame (f : MIFrame)
  | dict (entries : List (String × PyObj Table))

variable {Table : Type}

/-- Python `params.get(k, default)` on a (non-`None`) dictionary. -/
def pyGet (ps : List (String × PyObj Table)) (k : String) (default : PyObj Table) :
    PyObj Table :=
  (dictLookup ps k).getD default

/-- Python `params.get(k, default)` where `params` may be `None`
(`Optional[Dict]`): attribute access `.get` on `None` raises `AttributeError`. -/
def pyDictGet (params : Option (List (String × PyObj Table))) (k : String)
    (default : PyObj Table) : Except PyError (PyObj Table) :=
  match params with
  | none => .error (.attributeError "get")
  | some ps => .ok (pyGet ps k default)

/-- Python `d.keys()`: only dictionaries have the attribute. -/
def pyKeys : PyObj Table → Except PyError (List String)
  | .dict es => .ok (es.map Prod.fst)
  | _ => .error (.attributeError "keys")

/-- Python iteration `for x in v` yielding strings: lists of strings yield their
elements, dictionaries their keys, strings their characters; other values are
not iterable. -/
def pyIter : PyObj Table → Except PyError (List String)
  | .strList xs => .ok xs
  | .dict es => .ok (es.map Prod.fst)
  | .str s => .ok (s.data.map (fun c => String.mk [c]))
  | _ => .error .typeError

/-- JSON values, for the `to_file` / `from_file` serialization of a protocol. -/
inductive Json where
  | null
  | num (n : Int)
  | str (s : String)
  | arr (xs : List Json)
  | obj (entries : List (String × Json))

/-- Top-level keys of a serialized JSON object. -/
def jsonTopKeys : Json → List String
  | .obj es => es.map Prod.fst
  | _ => []

/-- One row of a `SalivaRawDataFrame`: one saliva sample of one subject, with
an optional `time` column and a numeric measurement. -/
structure SalivaRow where
  subject : String
  time : Option Int
  value : Int
  deriving DecidableEq, Repr

/-- A `SalivaRawDataFrame`: one row per (subject, sample), in index order. -/
abbrev SalivaFrame : Type := List SalivaRow

/-- The state of a `BaseProtocol` object (`BaseProtocol.__init__`,
`protocols/base.py` lines 137-217; the plot-styling kwargs are omitted as they
play no role in the data pipeline). -/
structure ProtocolState (Table : Type) where
  name : String
  «structure» : Json
  saliva_types : List String
  test_times : List Int
  sample_times : List (String × List Int)
  saliva_data : List (String × SalivaFrame)
  hr_data : List (String × PyObj Table)
  rpeak_data : List (String × PyObj Table)
  hr_results : List (String × PyObj Table)
  hrv_results : List (String × PyObj Table)
  hr_ensemble : List (String × PyObj Table)

/-- `BaseProtocol.__init__`: a `test_times` of `None` becomes `[0, 0]`; all
data dictionaries start empty.  A `structure` of Python `None` is `Json.null`. -/
def protocolInit (name : String) (struct : Json) (test_times : Option (List Int)) :
    ProtocolState Table where
  name := name
  «structure» := struct
  saliva_types := []
  test_times := test_times.getD [0, 0]
  sample_times := []
  saliva_data := []
  hr_data := []
  rpeak_data := []
  hr_results := []
  hrv_results := []
  hr_ensemble := []

/-- The external processing-step functions imported from
`biopsykit.utils.data_processing` and `biopsykit.signals.ecg`.  They are not
part of the given sources; each is an abstract function on pipeline data that
may raise.  `hrv_process rpeaks hrv_params` is modelled from the spec: the
external HRV function returns a dataframe whose index is a single artifact
level that is not semantically meaningful, so its result is the list of the
artifact index labels of its rows. -/
structure Transformers (Table : Type) where
  resample_dict_sec : PyObj Table → Except PyError (PyObj Table)
  normalize_to_phase : PyObj Table → PyObj Table → Except PyError (PyObj Table)
  select_dict_phases : PyObj Table → PyObj Table → Except PyError (PyObj Table)
  split_dict_into_subphases : PyObj Table → PyObj Table → Except PyError (PyObj Table)
  mean_per_subject_dict : PyObj Table → PyObj Table → String → Except PyError (PyObj Table)
  add_subject_conditions : PyObj Table → PyObj Table → Except PyError (PyObj Table)
  rearrange_subject_data_dict : PyObj Table → Except PyError (PyObj Table)
  cut_phases_to_shortest : PyObj Table → Except PyError (PyObj Table)
  merge_study_data_dict : PyObj Table → Except PyError (PyObj Table)
  split_subject_conditions : PyObj Table → PyObj Table → Except PyError (PyObj Table)
  hrv_process : PyObj Table → List (String × PyObj Table) → Except PyError (List String)

/-- Run the body of a `compute_*` method: the pipeline only operates on local
data, so an exception leaves the object state `st` untouched, while on success
the single final cache assignment `commit` is performed. -/
def runPipeline (st : ProtocolState Table) (p : Except PyError α)
    (commit : α → ProtocolState Table) : Except (PyError × ProtocolState Table) (ProtocolState Table) :=
  match p with
  | .ok v => .ok (commit v)
  | .error e => .error (e, st)

/-- `BaseProtocol.compute_hr_results` (`protocols/base.py` lines 417-508).
A `study_part` of `None` defaults to `"Study"`; a `params` of `None` is
replaced by the empty dictionary; the six processing steps run in the fixed
source order, each only when its boolean flag is set; the result is stored in
`hr_results` under `result_id` by the single final assignment. -/
def computeHrResults (T : Transformers Table) (st : ProtocolState Table)
    (result_id : String) (study_part : Option String)
    (resample_sec normalize_to select_phases split_into_subphases
      mean_per_subject add_conditions : Bool)
    (params : Option (List (String × PyObj Table))) :
    Except (PyError × ProtocolState Table) (ProtocolState Table) :=
  let sp := study_part.getD "Study"
  runPipeline st
    (do
      let data0 ← subscript st.hr_data sp
      let ps := params.getD []
      let d1 ← if resample_sec then T.resample_dict_sec data0 else .ok data0
      let d2 ← if normalize_to then
          T.normalize_to_phase d1 (pyGet ps "normalize_to" .pynone) else .ok d1
      let d3 ← if select_phases then
          T.select_dict_phases d2 (pyGet ps "select_phases" .pynone) else .ok d2
      let d4 ← if split_into_subphases then
          T.split_dict_into_subphases d3 (pyGet ps "split_into_subphases" .pynone) else .ok d3
      let d5 ← if mean_per_subject then
          T.mean_per_subject_dict d4
            (pyGet ps "mean_per_subject" (.strList ["subject", "phase"])) "Heart_Rate"
        else .ok d4
      if add_conditions then
        T.add_subject_conditions d5 (pyGet ps "add_conditions" .pynone)
      else .ok d5)
    (fun v => { st with hr_results := dictInsert st.hr_results result_id v })

/-- The inlined phase-selection step of `compute_hr_ensemble` (lines 688-690):
`param = params.get("select_phases", data_dict.keys())` followed by the dict
comprehension `{phase: data_dict[phase] for phase in param}`.  The attribute
access `params.get` is evaluated first (an `AttributeError` when `params` is
`None`), then the default argument `data_dict.keys()`. -/
def ensembleSelectStep (d : PyObj Table) (params : Option (List (String × PyObj Table))) :
    Except PyError (PyObj Table) :=
  match params with
  | none => .error (.attributeError "get")
  | some ps => do
    let ks ← pyKeys d
    let phases ← pyIter (pyGet ps "select_phases" (.strList ks))
    match d with
    | .dict es => do
        let entries ← phases.mapM (fun ph => do
          let v ← subscript es ph
          pure (ph, v))
        pure (.dict entries)
    | _ => .error .typeError

/-- `BaseProtocol.compute_hr_ensemble` (`protocols/base.py` lines 608-702).
Unlike `compute_hr_results` and `compute_hrv_results`, a `params` of `None` is
NOT replaced by an empty dictionary; `rearrange_subject_data_dict` runs
unconditionally between the normalize and select steps. -/
def computeHrEnsemble (T : Transformers Table) (st : ProtocolState Table)
    (ensemble_id : String) (study_part : Option String)
    (resample_sec normalize_to select_phases cut_phases merge_dict add_conditions : Bool)
    (params : Option (List (String × PyObj Table))) :
    Except (PyError × ProtocolState Table) (ProtocolState Table) :=
  let sp := study_part.getD "Study"
  runPipeline st
    (do
      let data0 ← subscript st.hr_data sp
      let d1 ← if resample_sec then T.resample_dict_sec data0 else .ok data0
      let d2 ← if normalize_to then do
          let p ← pyDictGet params "normalize_to" .pynone
          T.normalize_to_phase d1 p
        else .ok d1
      let d3 ← T.rearrange_subject_data_dict d2
      let d4 ← if select_phases then ensembleSelectStep d3 params else .ok d3
      let d5 ← if cut_phases then T.cut_phases_to_shortest d4 else .ok d4
      let d6 ← if merge_dict then T.merge_study_data_dict d5 else .ok d5
      if add_conditions then do
        let p ← pyDictGet params "add_conditions" .pynone
        T.split_subject_conditions d6 p
      else .ok d6)
    (fun v => { st with hr_ensemble := dictInsert st.hr_ensemble ensemble_id v })

/-- One toggle-able pipeline step: when the flag is unset the data passes
through unchanged. -/
def stepIf (flag : Bool) (f : α → Except PyError α) (x : α) : Except PyError α :=
  if flag then f x else .ok x

/-- Apply a list of toggle-able steps in order. -/
def runSteps : List (Bool × (α → Except PyError α)) → α → Except PyError α
  | [], x => .ok x
  | s :: rest, x => do
    let y ← stepIf s.1 s.2 x
    runSteps rest y

/-- The `compute_hr_results` pipeline as the spec states it: the six
transformer steps in the fixed order resample → normalize → select_phases →
split_into_subphases → mean_per_subject → add_conditions, each independently
toggle-able. -/
def hrResultsSteps (T : Transformers Table)
    (resample_sec normalize_to select_phases split_into_subphases
      mean_per_subject add_conditions : Bool)
    (ps : List (String × PyObj Table)) :
    List (Bool × (PyObj Table → Except PyError (PyObj Table))) :=
  [ (resample_sec, T.resample_dict_sec),
    (normalize_to, fun d => T.normalize_to_phase d (pyGet ps "normalize_to" .pynone)),
    (select_phases, fun d => T.select_dict_phases d (pyGet ps "select_phases" .pynone)),
    (split_into_subphases,
      fun d => T.split_dict_into_subphases d (pyGet ps "split_into_subphases" .pynone)),
    (mean_per_subject,
      fun d => T.mean_per_subject_dict d
        (pyGet ps "mean_per_subject" (.strList ["subject", "phase"])) "Heart_Rate"),
    (add_conditions, fun d => T.add_subject_conditions d (pyGet ps "add_conditions" .pynone)) ]

/-- The `compute_hr_ensemble` pipeline as the spec states it: resample →
normalize → rearrange-to-phase-outer → select_phases → cut_to_shortest →
merge_subjects → add_conditions, with the rearrange step always enabled. -/
def hrEnsembleSteps (T : Transformers Table)
    (resample_sec normalize_to select_phases cut_phases merge_dict add_conditions : Bool)
    (params : Option (List (String × PyObj Table))) :
    List (Bool × (PyObj Table → Except PyError (PyObj Table))) :=
  [ (resample_sec, T.resample_dict_sec),
    (normalize_to, fun d => do
      let p ← pyDictGet params "normalize_to" .pynone
      T.normalize_to_phase d p),
    (true, T.rearrange_subject_data_dict),
    (select_phases, fun d => ensembleSelectStep d params),
    (cut_phases, T.cut_phases_to_shortest),
    (merge_dict, T.merge_study_data_dict),
    (add_conditions, fun d => do
      let p ← pyDictGet params "add_conditions" .pynone
      T.split_subject_conditions d p) ]

/-- `BaseProtocol.to_file` (`protocols/base.py` lines 279-298): the serialized
JSON object holds exactly the keys `name`, `structure` and `test_times`, in
this order (`to_export = ["name", "structure", "test_times"]`). -/
def toFile (st : ProtocolState Table) : Json :=
  .obj [ ("name", .str st.name),
         ("structure", st.«structure»),
         ("test_times", .arr (st.test_times.map .num)) ]

/-- Decode a JSON array of numbers, as `json.load` yields the list that was
dumped for a list of integers. -/
def decodeIntList : List Json → Except PyError (List Int)
  | [] => .ok []
  | Json.num n :: rest => do
      let ns ← decodeIntList rest
      .ok (n :: ns)
  | _ :: _ => .error .typeError

/-- `BaseProtocol.from_file` (`protocols/base.py` lines 300-320): load the JSON
object and call `cls(**json_dict)`.  A missing `name` key is a `TypeError`
(missing required argument); missing `structure` or `test_times` fall back to
the constructor defaults; extra keys are absorbed by `**kwargs`.  The
decoding is only defined on the value shapes `to_file` can produce. -/
def fromFile (j : Json) : Except PyError (ProtocolState Table) :=
  match j with
  | .obj entries => do
      let nm ← match dictLookup entries "name" with
        | some (Json.str s) => .ok s
        | some _ => .error .typeError
        | none => .error .typeError
      let struct := (dictLookup entries "structure").getD Json.null
      let tt ← match dictLookup entries "test_times" with
        | some Json.null => .ok none
        | some (Json.arr xs) => do
            let ts ← decodeIntList xs
            .ok (some ts)
        | some _ => .error .typeError
        | none => .ok (none : Option (List Int))
      .ok (protocolInit nm struct tt)
  | _ => .error .typeError

/-- The one-row-set result of the external HRV function at one leaf, as an
index-modelled dataframe: a single unnamed artifact index level (modelled from
the spec: the innermost level "comes from neurokit's hrv function and is not
needed"). -/
def leafFrame (labels : List String) : MIFrame where
  levelNames := [Option.none]
  rows := labels.map (fun l => [l])

/-- Python `dict_levels[0]`: `IndexError` on an empty list. -/
def levelHead : List String → Except PyError String
  | [] => .error .indexError
  | l :: _ => .ok l

/-- `pd.concat(result_dict, names=[name])`: prepend one index level named
`name` whose labels are the dictionary keys; concatenating an empty collection
raises a `ValueError`.  The deeper level names are taken from the first frame
(all frames agree in the uses below). -/
def concatFrames (name : String) (entries : List (String × MIFrame)) :
    Except PyError MIFrame :=
  match entries with
  | [] => .error .valueError
  | (_, f0) :: _ =>
      .ok ⟨some name :: f0.levelNames,
           entries.flatMap (fun kf => kf.2.rows.map (fun r => kf.1 :: r))⟩

/-- `df.droplevel(level=-1)`: remove the innermost index level; pandas raises a
`ValueError` when this would remove all index levels. -/
def droplevelLast (f : MIFrame) : Except PyError MIFrame :=
  if f.levelNames.length ≤ 1 then .error .valueError
  else .ok ⟨f.levelNames.dropLast, f.rows.map List.dropLast⟩

mutual

/-- Body of `BaseProtocol._compute_hrv_dict` (`protocols/base.py` lines
594-606) for the entries of one dictionary level: the loop fills `result_dict`
first, then `dict_levels[0]` is evaluated, then `pd.concat` runs. -/
def computeHrvCore (T : Transformers Table) (hrv_params : List (String × PyObj Table))
    (entries : List (String × PyObj Table)) (dict_levels : List String) :
    Except PyError MIFrame := do
  let results ← computeHrvEntries T hrv_params entries dict_levels
  let name ← levelHead dict_levels
  concatFrames name results
termination_by 2 * sizeOf entries + 1

/-- The `for key, value in rpeak_dict.items()` loop of `_compute_hrv_dict`. -/
def computeHrvEntries (T : Transformers Table) (hrv_params : List (String × PyObj Table)) :
    List (String × PyObj Table) → List String →
    Except PyError (List (String × MIFrame))
  | [], _ => .ok []
  | kv :: rest, dict_levels => do
      let r ← computeHrvValue T hrv_params kv.2 dict_levels
      let rs ← computeHrvEntries T hrv_params rest dict_levels
      .ok ((kv.1, r) :: rs)
termination_by es _levels => 2 * sizeOf es
decreasing_by
  all_goals obtain ⟨k1, v1⟩ := kv
  all_goals simp_wf
  all_goals omega

/-- One iteration of the `_compute_hrv_dict` loop: `_assert_is_dtype(value,
(dict, pd.DataFrame))` raises a `ValidationError` for any other value; a nested
dictionary recurses with `dict_levels[1:]`; a dataframe leaf is passed to the
external `EcgProcessor.hrv_process`. -/
def computeHrvValue (T : Transformers Table) (hrv_params : List (String × PyObj Table)) :
    PyObj Table → List String → Except PyError MIFrame
  | .dict es, dict_levels => computeHrvCore T hrv_params es (dict_levels.drop 1)
  | .table t, _ => (T.hrv_process (.table t) hrv_params).map leafFrame
  | .frame f, _ => (T.hrv_process (.frame f) hrv_params).map leafFrame
  | _, _ => .error (.validationError ["dict or DataFrame"])
termination_by v _levels => 2 * sizeOf v

end

/-- `BaseProtocol._compute_hrv_dict` itself: called on the (dictionary-shaped)
R-peak data; `.items()` on a non-dictionary is an `AttributeError`. -/
def computeHrvDict (T : Transformers Table) (hrv_params : List (String × PyObj Table))
    (d : PyObj Table) (dict_levels : List String) : Except PyError MIFrame :=
  match d with
  | .dict entries => computeHrvCore T hrv_params entries dict_levels
  | _ => .error (.attributeError "items")

/-- `BaseProtocol.compute_hrv_results` (`protocols/base.py` lines 510-592).
`dict_levels` of `None` defaults to `["subject", "phase"]`, extended by
`"subphase"` when `split_into_subphases` is set; `hrv_params` and `params` of
`None` become empty dictionaries; after the recursive assembly, the innermost
index level is dropped before the optional condition step and the single final
cache assignment. -/
def computeHrvResults (T : Transformers Table) (st : ProtocolState Table)
    (result_id : String) (study_part : Option String)
    (select_phases split_into_subphases add_conditions : Bool)
    (dict_levels : Option (List String))
    (hrv_params params : Option (List (String × PyObj Table))) :
    Except (PyError × ProtocolState Table) (ProtocolState Table) :=
  let sp := study_part.getD "Study"
  let levels := match dict_levels with
    | some ls => ls
    | none => if split_into_subphases then ["subject", "phase", "subphase"]
              else ["subject", "phase"]
  runPipeline st
    (do
      let data0 ← subscript st.rpeak_data sp
      let hps := hrv_params.getD []
      let ps := params.getD []
      let d1 ← if select_phases then
          T.select_dict_phases data0 (pyGet ps "select_phases" .pynone) else .ok data0
      let d2 ← if split_into_subphases then
          T.split_dict_into_subphases d1 (pyGet ps "split_into_subphases" .pynone) else .ok d1
      let f0 ← computeHrvDict T hps d2 levels
      let f1 ← droplevelLast f0
      if add_conditions then
        T.add_subject_conditions (.frame f1) (pyGet ps "add_conditions" .pynone)
      else .ok (.frame f1))
    (fun v => { st with hrv_results := dictInsert st.hrv_results result_id v })

/-- The `saliva_data` argument of `add_saliva_data`: either one raw saliva
dataframe or a dictionary of one per saliva type. -/
inductive SalivaDataIn where
  | frameIn (f : SalivaFrame)
  | dictIn (entries : List (String × SalivaFrame))

/-- The `saliva_type` argument of `add_saliva_data`: a single type name or a
list of type names (it may only be omitted when the data is a dictionary, in
which case it is ignored anyway). -/
inductive SalivaTypeIn where
  | typeStr (s : String)
  | typeList (xs : List String)

/-- The `sample_times` argument of `add_saliva_data`: absent, one list shared
by all saliva types, or a per-type dictionary (whose values may again be
`None`). -/
inductive SampleTimesIn where
  | timesNone
  | timesList (xs : List Int)
  | timesDict (entries : List (String × Option (List Int)))

/-- Lines 348-351 of `add_saliva_data`: the saliva types are the dictionary
keys when the data is a dictionary, otherwise the given type name(s). -/
def resolveTypes : SalivaDataIn → SalivaTypeIn → List String
  | .dictIn es, _ => es.map Prod.fst
  | .frameIn _, .typeStr s => [s]
  | .frameIn _, .typeList xs => xs

/-- Lines 358-359: a non-dictionary `sample_times` is fanned out to all saliva
types. -/
def resolveStimes (types : List String) : SampleTimesIn → List (String × Option (List Int))
  | .timesDict es => es
  | .timesList xs => types.map (fun k => (k, some xs))
  | .timesNone => types.map (fun k => (k, (none : Option (List Int))))

/-- Lines 360-361: a non-dictionary `saliva_data` is fanned out to all saliva
types. -/
def resolveSdata (types : List String) : SalivaDataIn → List (String × SalivaFrame)
  | .dictIn es => es
  | .frameIn f => types.map (fun k => (k, f))

/-- Modelled from the spec: conversion of sample times that are relative to the
psychological test into absolute minutes using `test_times = [start, end]`
(`_get_sample_times` is not part of the given sources).  With the spec's
convention that the test starts at `t = 0`, times shift by the test start, so
for a start of `0` they are returned unchanged.  Only the length of the result
matters to the validation below, and resolution preserves it. -/
def resolveTimes (ts : List Int) (test_times : List Int) : List Int :=
  ts.map (fun t => t + test_times.headD 0)

/-- Modelled from the spec: when no sample times are given for a saliva type,
they are inferred from the `time` column of the raw data (the times of the
first subject's samples); a missing `time` column is a `ConfigurationError`. -/
def inferSampleTimes (f : SalivaFrame) : Except PyError (List Int) :=
  match f with
  | [] => .ok []
  | r0 :: _ =>
      (f.filter (fun r => r.subject = r0.subject)).mapM
        (fun r => match r.time with
          | some t => .ok t
          | none => .error .configurationError)

/-- Modelled from the spec: `_get_sample_times` (imported from
`biopsykit.protocols.utils`, not part of the given sources) produces the
validated per-type sample-time map: explicit times are converted to absolute
times, absent times are inferred from the data's `time` column. -/
def getSampleTimes : List (String × SalivaFrame) → List (String × Option (List Int)) →
    List Int → Except PyError (List (String × List Int))
  | [], _, _ => .ok []
  | kf :: rest, times, test_times => do
      let tOpt ← match dictLookup times kf.1 with
        | some t => .ok t
        | none => .error (.keyError kf.1)
      let entry ← match tOpt with
        | some ts => .ok (kf.1, resolveTimes ts test_times)
        | none => do
            let ts ← inferSampleTimes kf.2
            .ok (kf.1, ts)
      let entries ← getSampleTimes rest times test_times
      .ok (entry :: entries)

/-- Does `r`'s subject have a number of samples in `f` different from the
number of sample times? -/
def countDiffers (f : SalivaFrame) (times : List Int) (r : SalivaRow) : Bool :=
  (f.filter (fun r2 => r2.subject = r.subject)).length ≠ times.length

/-- Modelled from the spec: `_check_sample_times_match` (imported from
`biopsykit.protocols.utils`, not part of the given sources) validates that for
every subject the number of samples in the raw data equals the number of
sample times, and raises a `ValidationError` naming the offending saliva type
and subject on the first mismatch. -/
def checkSampleTimesMatch (f : SalivaFrame) (saliva_type : String)
    (times : List Int) : Except PyError Unit :=
  match f.find? (countDiffers f times) with
  | some r => .error (.validationError [saliva_type, r.subject])
  | none => .ok ()

/-- The dataframe branch of `BaseProtocol._add_saliva_data` (lines 376-388):
the schema validators `is_saliva_raw_dataframe` / `is_saliva_mean_se_dataframe`
accept every value of the `SalivaFrame` embedding (which only contains
schema-valid frames), after which the sample-time count is checked. -/
def addSalivaDataLeaf (data : SalivaFrame) (saliva_type : String)
    (sample_times : List Int) : Except PyError SalivaFrame := do
  checkSampleTimesMatch data saliva_type sample_times
  .ok data

/-- The dictionary branch of `BaseProtocol._add_saliva_data` (lines 372-375):
recurse per saliva type with that type's entry of the (already updated)
`sample_times` dictionary. -/
def addSalivaDataDict : List (String × SalivaFrame) → List (String × List Int) →
    Except PyError (List (String × SalivaFrame))
  | [], _ => .ok []
  | kf :: rest, sample_times => do
      let ts ← subscript sample_times kf.1
      let v ← addSalivaDataLeaf kf.2 kf.1 ts
      let vs ← addSalivaDataDict rest sample_times
      .ok ((kf.1, v) :: vs)

/-- `BaseProtocol.add_saliva_data` (`protocols/base.py` lines 322-363).  The
method mutates the object as it goes: `saliva_types` (line 352) and
`test_times` (line 355, only when given) are assigned first, then
`sample_times` is updated with the resolved times (line 362), and only then is
the data validated and merged into `saliva_data` (line 363) — so a validation
failure propagates with the earlier assignments already applied. -/
def addSalivaData (st : ProtocolState Table) (saliva_data : SalivaDataIn)
    (saliva_type : SalivaTypeIn) (sample_times : SampleTimesIn)
    (test_times : Option (List Int)) :
    Except (PyError × ProtocolState Table) (ProtocolState Table) :=
  let types := resolveTypes saliva_data saliva_type
  let st1 := { st with saliva_types := types }
  let st2 := match test_times with
    | some tt => { st1 with test_times := tt }
    | none => st1
  let stimes := resolveStimes types sample_times
  let sdata := resolveSdata types saliva_data
  match getSampleTimes sdata stimes st2.test_times with
  | .error e => .error (e, st2)
  | .ok new_times =>
    let st3 := { st2 with sample_times := dictUpdate st2.sample_times new_times }
    match addSalivaDataDict sdata st3.sample_times with
    | .error e => .error (e, st3)
    | .ok validated =>
        .ok { st3 with saliva_data := dictUpdate st3.saliva_data validated }

mutual

/-- All paths of a nested R-peak value have the same depth: depth 0 is a leaf
dataframe, depth `n+1` a nonempty dictionary of depth-`n` values. -/
def depthUniform : PyObj Table → Nat → Bool
  | .table _, 0 => true
  | .dict es, n+1 => !es.isEmpty && depthUniformList es n
  | _, _ => false
termination_by v _n => 2 * sizeOf v + 1

/-- `depthUniform` at every entry of a dictionary level. -/
def depthUniformList : List (String × PyObj Table) → Nat → Bool
  | [], _ => true
  | kv :: rest, n => depthUniform kv.2 n && depthUniformList rest n
termination_by es _n => 2 * sizeOf es
decreasing_by
  all_goals obtain ⟨k1, v1⟩ := kv
  all_goals simp_wf
  all_goals omega

end

/-- Index level names produced by `computeHrvValue` on a depth-`m` uniform
value under level names `levels`: the entries `levels[1..m]`, followed by the
innermost artifact level contributed by the external HRV function. -/
def hrvValueNames (levels : List String) (m : Nat) : List (Option String) :=
  ((levels.drop 1).take m).map some ++ [Option.none]

/-- A benign instantiation of the external transformers over unit leaf tables:
every processing step succeeds and passes its input through unchanged, and the
HRV function returns a single row with artifact index label "0". -/
def trivialTransformers : Transformers Unit where
  resample_dict_sec := fun d => .ok d
  normalize_to_phase := fun d _ => .ok d
  select_dict_phases := fun d _ => .ok d
  split_dict_into_subphases := fun d _ => .ok d
  mean_per_subject_dict := fun d _ _ => .ok d
  add_subject_conditions := fun d _ => .ok d
  rearrange_subject_data_dict := fun d => .ok d
  cut_phases_to_shortest := fun d => .ok d
  merge_study_data_dict := fun d => .ok d
  split_subject_conditions := fun d _ => .ok d
  hrv_process := fun _ _ => .ok ["0"]

/-- A sample protocol state: heart-rate data for the default study part
`"Study"` and a two-level (subject → phase) R-peak dictionary. -/
def sampleState : ProtocolState Unit :=
  { protocolInit "Base" Json.null none with
      hr_data := [("Study", PyObj.dict [("s1", PyObj.table ())])],
      rpeak_data :=
        [("Study", PyObj.dict [("s1", PyObj.dict [("p1", PyObj.table ())])])] }

/-- A sample protocol state whose R-peak dictionary has a single level
(subject → dataframe). -/
def sampleStateFlat : ProtocolState Unit :=
  { protocolInit "Base" Json.null none with
      rpeak_data := [("Study", PyObj.dict [("s1", PyObj.table ())])] }
theorem dictLookup_insert_self {α : Type} (d : List (String × α)) (k : String) (v : α) :
    dictLookup (dictInsert d k v) k = some v := by
  induction d with
  | nil => simp [dictInsert, dictLookup]
  | cons hd tl ih =>
    by_cases h : hd.1 = k
    · simp [dictInsert, dictLookup, h]
    · simpa [dictInsert, dictLookup, h] using ih

theorem dictLookup_insert_ne {α : Type} (d : List (String × α)) (k k0 : String) (v : α)
    (h : k0 ≠ k) : dictLookup (dictInsert d k v) k0 = dictLookup d k0 := by
  have hk : ¬ k = k0 := fun h2 => h (Eq.symm h2)
  induction d with
  | nil => simp [dictInsert, dictLookup, hk]
  | cons hd tl ih =>
    by_cases h1 : hd.1 = k
    · simp [dictInsert, dictLookup, h1, hk]
    · simp only [dictInsert, if_neg h1, dictLookup]
      by_cases h2 : hd.1 = k0 <;> simp [h2, ih]

theorem runPipeline_error {st st' : ProtocolState Table} {p : Except PyError α}
    {commit : α → ProtocolState Table} {e : PyError}
    (h : runPipeline st p commit = .error (e, st')) : st' = st := by
  cases p with
  | ok v => simp [runPipeline] at h
  | error e0 =>
    simp only [runPipeline] at h
    cases h
    rfl

theorem runPipeline_ok {st st' : ProtocolState Table} {p : Except PyError α}
    {commit : α → ProtocolState Table}
    (h : runPipeline st p commit = .ok st') : ∃ v, p = .ok v ∧ st' = commit v := by
  cases p with
  | ok v =>
    simp only [runPipeline, Except.ok.injEq] at h
    exact ⟨v, rfl, h.symm⟩
  | error e0 => simp [runPipeline] at h


theorem bindOk (a : α) (f : α → Except PyError β) :
    (do let x ← Except.ok a; f x) = f a := rfl

theorem bindErr (e : PyError) (f : α → Except PyError β) :
    (do let x ← (Except.error e : Except PyError α); f x) =
      (Except.error e : Except PyError β) := rfl

theorem bindPureOk (e : Except PyError α) :
    (do let x ← e; Except.ok x) = e := by
  cases e <;> rfl

theorem except_bind_ok {e : Except PyError α} {f : α → Except PyError β} {v : β}
    (h : (do let a ← e; f a) = Except.ok v) : ∃ a, e = .ok a ∧ f a = .ok v := by
  cases e with
  | ok a => exact ⟨a, rfl, h⟩
  | error e0 => exact absurd h (by simp [bindErr])

theorem decodeIntList_map_num (xs : List Int) :
    decodeIntList (xs.map Json.num) = .ok xs := by
  induction xs with
  | nil => rfl
  | cons x xs ih => simp [List.map, decodeIntList, ih, bindOk]

/-- C3: serializing a protocol with `to_file` and loading it back with
`from_file` reconstructs identical `name`, `structure` and `test_times`, and
the serialized JSON object holds exactly those three fields — none of the
accumulated data caches. -/
theorem protocol_file_roundtrip (Table : Type) (st : ProtocolState Table) :
    (∃ st' : ProtocolState Table, fromFile (toFile st) = .ok st' ∧
      st'.name = st.name ∧ st'.«structure» = st.«structure» ∧
      st'.test_times = st.test_times) ∧
    jsonTopKeys (toFile st) = ["name", "structure", "test_times"] := by
  constructor
  · refine ⟨protocolInit st.name st.«structure» (some st.test_times), ?_, rfl, rfl, rfl⟩
    simp [fromFile, toFile, dictLookup, decodeIntList_map_num, bindOk]
  · rfl

theorem hr_pipeline_eq (T : Transformers Table)
    (b1 b2 b3 b4 b5 b6 : Bool) (ps : List (String × PyObj Table)) (d0 : PyObj Table) :
    runSteps (hrResultsSteps T b1 b2 b3 b4 b5 b6 ps) d0 =
      (do
        let d1 ← if b1 then T.resample_dict_sec d0 else .ok d0
        let d2 ← if b2 then
            T.normalize_to_phase d1 (pyGet ps "normalize_to" .pynone) else .ok d1
        let d3 ← if b3 then
            T.select_dict_phases d2 (pyGet ps "select_phases" .pynone) else .ok d2
        let d4 ← if b4 then
            T.split_dict_into_subphases d3 (pyGet ps "split_into_subphases" .pynone) else .ok d3
        let d5 ← if b5 then
            T.mean_per_subject_dict d4
              (pyGet ps "mean_per_subject" (.strList ["subject", "phase"])) "Heart_Rate"
          else .ok d4
        if b6 then T.add_subject_conditions d5 (pyGet ps "add_conditions" .pynone)
        else .ok d5) := by
  cases b1 <;> cases b2 <;> cases b3 <;> cases b4 <;> cases b5 <;> cases b6 <;>
    simp [hrResultsSteps, runSteps, stepIf, bindPureOk, bindOk]

/-- C1: for every study part present in `hr_data` and every combination of the
boolean step flags, `compute_hr_results` stores under `result_id` exactly the
result of applying, to `hr_data[study_part]`, the enabled transformer steps in
the fixed order resample → normalize → select_phases → split_into_subphases →
mean_per_subject → add_conditions, where every disabled step passes the data
through unchanged. -/
theorem hr_results_fixed_step_order (T : Transformers Table) (st : ProtocolState Table)
    (result_id : String) (study_part : Option String)
    (resample_sec normalize_to select_phases split_into_subphases
      mean_per_subject add_conditions : Bool)
    (params : Option (List (String × PyObj Table))) (d0 v : PyObj Table)
    (h0 : dictLookup st.hr_data (study_part.getD "Study") = some d0)
    (h1 : runSteps (hrResultsSteps T resample_sec normalize_to select_phases
            split_into_subphases mean_per_subject add_conditions (params.getD [])) d0 =
          .ok v) :
    computeHrResults T st result_id study_part resample_sec normalize_to select_phases
      split_into_subphases mean_per_subject add_conditions params =
      .ok { st with hr_results := dictInsert st.hr_results result_id v } := by
  cases resample_sec <;> cases normalize_to <;> cases select_phases <;>
    cases split_into_subphases <;> cases mean_per_subject <;> cases add_conditions <;>
    simp_all [computeHrResults, subscript, hrResultsSteps, runSteps, stepIf, runPipeline,
      bindOk, bindPureOk]

theorem hr_results_fixed_step_order_witness :
    dictLookup sampleState.hr_data ((none : Option String).getD "Study") =
      some (PyObj.dict [("s1", PyObj.table ())]) ∧
    runSteps (hrResultsSteps trivialTransformers true true true true true true
        ((some ([] : List (String × PyObj Unit))).getD []))
      (PyObj.dict [("s1", PyObj.table ())]) = .ok (PyObj.dict [("s1", PyObj.table ())]) ∧
    computeHrResults trivialTransformers sampleState "mean" none true true true true true true
        (some []) =
      .ok { sampleState with
              hr_results := dictInsert sampleState.hr_results "mean"
                (PyObj.dict [("s1", PyObj.table ())]) } :=
  ⟨rfl, rfl,
    hr_results_fixed_step_order trivialTransformers sampleState "mean" none true true true
      true true true (some []) (PyObj.dict [("s1", PyObj.table ())])
      (PyObj.dict [("s1", PyObj.table ())]) rfl rfl⟩

set_option maxHeartbeats 1600000 in
/-- C7: for every `compute_hr_ensemble` call, the cached ensemble equals the
result of applying to `hr_data[study_part]` the enabled steps in the fixed
order resample → normalize → rearrange-to-phase-outer → select_phases →
cut_to_shortest → merge_subjects → add_conditions, where the rearrange step is
always applied independently of every flag and disabled steps pass the data
through unchanged. -/
theorem hr_ensemble_fixed_step_order (T : Transformers Table) (st : ProtocolState Table)
    (ensemble_id : String) (study_part : Option String)
    (resample_sec normalize_to select_phases cut_phases merge_dict add_conditions : Bool)
    (params : Option (List (String × PyObj Table))) (d0 v : PyObj Table)
    (h0 : dictLookup st.hr_data (study_part.getD "Study") = some d0)
    (h1 : runSteps (hrEnsembleSteps T resample_sec normalize_to select_phases
            cut_phases merge_dict add_conditions params) d0 = .ok v) :
    computeHrEnsemble T st ensemble_id study_part resample_sec normalize_to select_phases
      cut_phases merge_dict add_conditions params =
      .ok { st with hr_ensemble := dictInsert st.hr_ensemble ensemble_id v } := by
  cases resample_sec <;> cases normalize_to <;> cases select_phases <;>
    cases cut_phases <;> cases merge_dict <;> cases add_conditions <;>
    simp_all [computeHrEnsemble, subscript, hrEnsembleSteps, runSteps, stepIf, runPipeline,
      bindOk, bindPureOk]

theorem hr_ensemble_fixed_step_order_witness :
    dictLookup sampleState.hr_data ((none : Option String).getD "Study") =
      some (PyObj.dict [("s1", PyObj.table ())]) ∧
    runSteps (hrEnsembleSteps trivialTransformers true true true true true true
        (some ([] : List (String × PyObj Unit))))
      (PyObj.dict [("s1", PyObj.table ())]) = .ok (PyObj.dict [("s1", PyObj.table ())]) ∧
    computeHrEnsemble trivialTransformers sampleState "ens" none true true true true true true
        (some []) =
      .ok { sampleState with
              hr_ensemble := dictInsert sampleState.hr_ensemble "ens"
                (PyObj.dict [("s1", PyObj.table ())]) } :=
  ⟨rfl, rfl,
    hr_ensemble_fixed_step_order trivialTransformers sampleState "ens" none true true true
      true true true (some []) (PyObj.dict [("s1", PyObj.table ())])
      (PyObj.dict [("s1", PyObj.table ())]) rfl rfl⟩

/-- C2: each of `compute_hr_results`, `compute_hrv_results` and
`compute_hr_ensemble` is atomic with respect to its result cache: if any
processing step raises, the whole object state — in particular the result
cache — is exactly the state before the call; if no step raises, the full
result is stored under the given identifier by the one final assignment. -/
theorem compute_results_atomic (T : Transformers Table) (st : ProtocolState Table)
    (rid1 rid2 eid : String) (sp1 sp2 sp3 : Option String)
    (b1 b2 b3 b4 b5 b6 c1 c2 c3 e1 e2 e3 e4 e5 e6 : Bool)
    (dl : Option (List String)) (hps ps1 ps2 ps3 : Option (List (String × PyObj Table))) :
    (∀ e st', computeHrResults T st rid1 sp1 b1 b2 b3 b4 b5 b6 ps1 = .error (e, st') →
        st' = st) ∧
    (∀ st', computeHrResults T st rid1 sp1 b1 b2 b3 b4 b5 b6 ps1 = .ok st' →
        ∃ v, st' = { st with hr_results := dictInsert st.hr_results rid1 v }) ∧
    (∀ e st', computeHrvResults T st rid2 sp2 c1 c2 c3 dl hps ps2 = .error (e, st') →
        st' = st) ∧
    (∀ st', computeHrvResults T st rid2 sp2 c1 c2 c3 dl hps ps2 = .ok st' →
        ∃ v, st' = { st with hrv_results := dictInsert st.hrv_results rid2 v }) ∧
    (∀ e st', computeHrEnsemble T st eid sp3 e1 e2 e3 e4 e5 e6 ps3 = .error (e, st') →
        st' = st) ∧
    (∀ st', computeHrEnsemble T st eid sp3 e1 e2 e3 e4 e5 e6 ps3 = .ok st' →
        ∃ v, st' = { st with hr_ensemble := dictInsert st.hr_ensemble eid v }) := by
  refine ⟨fun e st' h => ?_, fun st' h => ?_, fun e st' h => ?_, fun st' h => ?_,
    fun e st' h => ?_, fun st' h => ?_⟩
  · exact runPipeline_error h
  · obtain ⟨v, _, hs⟩ := runPipeline_ok h
    exact ⟨v, hs⟩
  · exact runPipeline_error h
  · obtain ⟨v, _, hs⟩ := runPipeline_ok h
    exact ⟨v, hs⟩
  · exact runPipeline_error h
  · obtain ⟨v, _, hs⟩ := runPipeline_ok h
    exact ⟨v, hs⟩

theorem compute_results_atomic_witness :
    computeHrResults trivialTransformers (protocolInit "Base" Json.null none : ProtocolState Unit)
        "r" none true false false false true false none =
      .error (.keyError "Study", protocolInit "Base" Json.null none) ∧
    (protocolInit "Base" Json.null none : ProtocolState Unit) =
      protocolInit "Base" Json.null none :=
  ⟨rfl,
    (compute_results_atomic trivialTransformers (protocolInit "Base" Json.null none) "r" "r2"
        "e" none none none true false false false true false false false false true true false
        true true false none none none none none).1
      (.keyError "Study") (protocolInit "Base" Json.null none) rfl⟩

/-- C8: a successful `compute_hr_results` or `compute_hr_ensemble` call leaves
the raw input dictionaries (`hr_data`, `rpeak_data`, `saliva_data`) and every
cache entry other than the one stored under the given identifier unchanged:
the pipeline operates on a copy and the (pure) transformers return new
structures without mutating their input. -/
theorem compute_results_frame (T : Transformers Table) (st : ProtocolState Table)
    (rid eid : String) (sp1 sp3 : Option String)
    (b1 b2 b3 b4 b5 b6 e1 e2 e3 e4 e5 e6 : Bool)
    (ps1 ps3 : Option (List (String × PyObj Table))) :
    (∀ st', computeHrResults T st rid sp1 b1 b2 b3 b4 b5 b6 ps1 = .ok st' →
      st'.hr_data = st.hr_data ∧ st'.rpeak_data = st.rpeak_data ∧
      st'.saliva_data = st.saliva_data ∧ st'.hrv_results = st.hrv_results ∧
      st'.hr_ensemble = st.hr_ensemble ∧
      ∀ k, k ≠ rid → dictLookup st'.hr_results k = dictLookup st.hr_results k) ∧
    (∀ st', computeHrEnsemble T st eid sp3 e1 e2 e3 e4 e5 e6 ps3 = .ok st' →
      st'.hr_data = st.hr_data ∧ st'.rpeak_data = st.rpeak_data ∧
      st'.saliva_data = st.saliva_data ∧ st'.hr_results = st.hr_results ∧
      st'.hrv_results = st.hrv_results ∧
      ∀ k, k ≠ eid → dictLookup st'.hr_ensemble k = dictLookup st.hr_ensemble k) := by
  constructor
  · intro st' h
    obtain ⟨v, _, hs⟩ := runPipeline_ok h
    subst hs
    exact ⟨rfl, rfl, rfl, rfl, rfl, fun k hk => dictLookup_insert_ne _ _ _ _ hk⟩
  · intro st' h
    obtain ⟨v, _, hs⟩ := runPipeline_ok h
    subst hs
    exact ⟨rfl, rfl, rfl, rfl, rfl, fun k hk => dictLookup_insert_ne _ _ _ _ hk⟩

theorem compute_results_frame_witness :
    computeHrResults trivialTransformers sampleState "mean" none true false false false true
        false none =
      .ok { sampleState with
              hr_results := [("mean", PyObj.dict [("s1", PyObj.table ())])] } ∧
    ({ sampleState with
         hr_results := [("mean", PyObj.dict [("s1", PyObj.table ())])] } :
       ProtocolState Unit).hr_data = sampleState.hr_data ∧
    dictLookup ({ sampleState with
         hr_results := [("mean", PyObj.dict [("s1", PyObj.table ())])] } :
       ProtocolState Unit).hr_results "other" = dictLookup sampleState.hr_results "other" :=
  ⟨rfl,
    ((compute_results_frame trivialTransformers sampleState "mean" "e" none none
        true false false false true false true true false true true false none none).1
      _ rfl).1,
    (((compute_results_frame trivialTransformers sampleState "mean" "e" none none
        true false false false true false true true false true true false none none).1
      _ rfl).2.2.2.2.2) "other" (by decide)⟩

/-- C9: with its default `params = None`, `compute_hr_ensemble` fails on a
well-formed heart-rate input with an `AttributeError` from `.get` on `None` as
soon as `normalize_to` (default `True`), `select_phases` or `add_conditions`
is enabled, leaving the `hr_ensemble` cache (indeed the whole state) unchanged
— unlike `compute_hr_results` and `compute_hrv_results`, which replace a
`None` params with an empty dictionary and succeed on the same input. -/
theorem hr_ensemble_none_params_attribute_error :
    computeHrEnsemble trivialTransformers sampleState "e" none true true false true true false
        none = .error (.attributeError "get", sampleState) ∧
    computeHrEnsemble trivialTransformers sampleState "e" none true false true true true false
        none = .error (.attributeError "get", sampleState) ∧
    computeHrEnsemble trivialTransformers sampleState "e" none true false false true true true
        none = .error (.attributeError "get", sampleState) ∧
    computeHrResults trivialTransformers sampleState "r" none true true true true true true
        none =
      .ok { sampleState with
              hr_results := [("r", PyObj.dict [("s1", PyObj.table ())])] } ∧
    computeHrvResults trivialTransformers sampleState "r2" none false false false none none
        none =
      .ok { sampleState with
              hrv_results := [("r2", PyObj.frame
                ⟨[some "subject", some "phase"], [["s1", "p1"]]⟩)] } := by
  refine ⟨rfl, rfl, rfl, rfl, ?_⟩
  simp [computeHrvResults, computeHrvDict, computeHrvCore, computeHrvEntries, computeHrvValue,
    subscript, dictLookup, trivialTransformers, sampleState, protocolInit, leafFrame,
    levelHead, concatFrames, droplevelLast, runPipeline, bindOk, dictInsert, Except.map,
    Function.comp, List.dropLast]

theorem depthUniformList_mem {es : List (String × PyObj Table)} {n : Nat}
    (h : depthUniformList es n = true) :
    ∀ kv ∈ es, depthUniform kv.2 n = true := by
  induction es with
  | nil => intro kv hkv; cases hkv
  | cons hd tl ih =>
    rw [depthUniformList] at h
    obtain ⟨h1, h2⟩ := Bool.and_eq_true_iff.mp h
    intro kv hkv
    rcases List.mem_cons.mp hkv with heq | hmem
    · subst heq; exact h1
    · exact ih h2 kv hmem

theorem computeHrvValue_table_ok (T : Transformers Table)
    (hps : List (String × PyObj Table))
    (H : ∀ x, ∃ ls, T.hrv_process x hps = .ok ls) (t : Table) (levels : List String) :
    ∃ rows, computeHrvValue T hps (.table t) levels = .ok ⟨[Option.none], rows⟩ := by
  obtain ⟨ls, hls⟩ := H (.table t)
  exact ⟨ls.map (fun l => [l]), by simp [computeHrvValue, hls, Except.map, leafFrame]⟩

theorem computeHrvEntries_ok (T : Transformers Table)
    (hps : List (String × PyObj Table)) (L : List (Option String)) :
    ∀ (es : List (String × PyObj Table)) (levels : List String),
      (∀ kv ∈ es, ∃ rows, computeHrvValue T hps kv.2 levels = .ok ⟨L, rows⟩) →
      ∃ out, computeHrvEntries T hps es levels = .ok out ∧
        out.map Prod.fst = es.map Prod.fst ∧
        ∀ x ∈ out, x.2.levelNames = L := by
  intro es
  induction es with
  | nil =>
    intro levels _
    exact ⟨[], by simp [computeHrvEntries], rfl, by simp⟩
  | cons kv rest ih =>
    intro levels h
    obtain ⟨rows, hv⟩ := h kv (List.mem_cons_self kv rest)
    obtain ⟨out, hout, hmap, hL⟩ := ih levels (fun x hx => h x (List.mem_cons_of_mem kv hx))
    refine ⟨(kv.1, ⟨L, rows⟩) :: out, ?_, by simp [hmap], ?_⟩
    · simp [computeHrvEntries, hv, hout, bindOk]
    · intro x hx
      rcases List.mem_cons.mp hx with heq | hmem
      · subst heq; rfl
      · exact hL x hmem

theorem computeHrvValue_uniform (T : Transformers Table)
    (hps : List (String × PyObj Table))
    (H : ∀ x, ∃ ls, T.hrv_process x hps = .ok ls) :
    ∀ (m : Nat) (v : PyObj Table) (levels : List String),
      depthUniform v m = true → m + 1 ≤ levels.length →
      ∃ rows, computeHrvValue T hps v levels = .ok ⟨hrvValueNames levels m, rows⟩ := by
  intro m
  induction m with
  | zero =>
    intro v levels hd _
    cases v with
    | table t =>
        obtain ⟨rows, hv⟩ := computeHrvValue_table_ok T hps H t levels
        exact ⟨rows, by simpa [hrvValueNames] using hv⟩
    | pynone => simp [depthUniform] at hd
    | str s => simp [depthUniform] at hd
    | int n => simp [depthUniform] at hd
    | strList xs => simp [depthUniform] at hd
    | frame f => simp [depthUniform] at hd
    | dict es => simp [depthUniform] at hd
  | succ m ih =>
    intro v levels hd hlen
    cases v with
    | dict es =>
        rw [depthUniform] at hd
        obtain ⟨hne, hdl⟩ := Bool.and_eq_true_iff.mp hd
        have hch : ∀ kv ∈ es, ∃ rows,
            computeHrvValue T hps kv.2 (levels.drop 1) =
              .ok ⟨hrvValueNames (levels.drop 1) m, rows⟩ := by
          intro kv hkv
          refine ih kv.2 (levels.drop 1) (depthUniformList_mem hdl kv hkv) ?_
          simp only [List.length_drop]
          omega
        obtain ⟨out, hout, hmap, hL⟩ :=
          computeHrvEntries_ok T hps (hrvValueNames (levels.drop 1) m) es (levels.drop 1) hch
        have hlev : ∃ l0 rest, levels.drop 1 = l0 :: rest := by
          cases hld : levels.drop 1 with
          | nil =>
            exfalso
            have : (levels.drop 1).length = 0 := by rw [hld]; rfl
            simp only [List.length_drop] at this
            omega
          | cons l0 rest => exact ⟨l0, rest, rfl⟩
        obtain ⟨l0, lrest, hld⟩ := hlev
        have houtne : ∃ o0 orest, out = o0 :: orest := by
          cases hout0 : out with
          | nil =>
            exfalso
            rw [hout0] at hmap
            cases es with
            | nil => simp at hne
            | cons a b => simp at hmap
          | cons o0 orest => exact ⟨o0, orest, rfl⟩
        obtain ⟨⟨k0, f0⟩, orest, hout0⟩ := houtne
        refine ⟨((k0, f0) :: orest).flatMap (fun kf => kf.2.rows.map (fun r => kf.1 :: r)), ?_⟩
        have hnames : f0.levelNames = hrvValueNames (levels.drop 1) m :=
          hL (k0, f0) (by rw [hout0]; exact List.mem_cons_self (k0, f0) orest)
        have hfinal : (some l0 :: hrvValueNames (levels.drop 1) m : List (Option String)) =
            hrvValueNames levels (m + 1) := by
          simp [hrvValueNames, hld]
        rw [hld] at hout
        simp only [computeHrvValue, computeHrvCore, hld, hout, bindOk, levelHead, hout0,
          concatFrames, hnames, hfinal]
        rw [← hld, hfinal]
    | table t => simp [depthUniform] at hd
    | pynone => simp [depthUniform] at hd
    | str s => simp [depthUniform] at hd
    | int n => simp [depthUniform] at hd
    | strList xs => simp [depthUniform] at hd
    | frame f => simp [depthUniform] at hd

theorem depthUniform_zero {v : PyObj Table} (h : depthUniform v 0 = true) :
    ∃ t, v = PyObj.table t := by
  cases v with
  | table t => exact ⟨t, rfl⟩
  | pynone => simp [depthUniform] at h
  | str s => simp [depthUniform] at h
  | int n => simp [depthUniform] at h
  | strList xs => simp [depthUniform] at h
  | frame f => simp [depthUniform] at h
  | dict es => simp [depthUniform] at h

theorem depthUniform_succ {v : PyObj Table} {m : Nat} (h : depthUniform v (m + 1) = true) :
    ∃ es, v = PyObj.dict es ∧ es.isEmpty = false ∧ depthUniformList es m = true := by
  cases v with
  | dict es =>
    rw [depthUniform] at h
    obtain ⟨h1, h2⟩ := Bool.and_eq_true_iff.mp h
    exact ⟨es, rfl, by simpa using h1, h2⟩
  | table t => simp [depthUniform] at h
  | pynone => simp [depthUniform] at h
  | str s => simp [depthUniform] at h
  | int n => simp [depthUniform] at h
  | strList xs => simp [depthUniform] at h
  | frame f => simp [depthUniform] at h

theorem computeHrvDict_uniform (T : Transformers Table) (hps : List (String × PyObj Table))
    (H : ∀ x, ∃ ls, T.hrv_process x hps = .ok ls) (n : Nat) (d : PyObj Table)
    (levels : List String) (hd : depthUniform d (n + 1) = true)
    (hlen : n + 1 ≤ levels.length) :
    ∃ rows, computeHrvDict T hps d levels =
      .ok ⟨(levels.take (n + 1)).map some ++ [Option.none], rows⟩ := by
  obtain ⟨es, rfl, hne, hdl⟩ := depthUniform_succ hd
  have hch : ∀ kv ∈ es, ∃ rows,
      computeHrvValue T hps kv.2 levels = .ok ⟨hrvValueNames levels n, rows⟩ :=
    fun kv hkv =>
      computeHrvValue_uniform T hps H n kv.2 levels (depthUniformList_mem hdl kv hkv) hlen
  obtain ⟨out, hout, hmap, hL⟩ :=
    computeHrvEntries_ok T hps (hrvValueNames levels n) es levels hch
  obtain ⟨l0, lrest, hlev⟩ : ∃ l0 rest, levels = l0 :: rest := by
    cases levels with
    | nil => simp at hlen
    | cons a b => exact ⟨a, b, rfl⟩
  have houtne : ∃ o0 orest, out = o0 :: orest := by
    cases hout0 : out with
    | nil =>
      exfalso
      rw [hout0] at hmap
      cases es with
      | nil => simp at hne
      | cons a b => simp at hmap
    | cons o0 orest => exact ⟨o0, orest, rfl⟩
  obtain ⟨⟨k0, f0⟩, orest, hout0⟩ := houtne
  refine ⟨((k0, f0) :: orest).flatMap (fun kf => kf.2.rows.map (fun r => kf.1 :: r)), ?_⟩
  have hnames : f0.levelNames = hrvValueNames levels n :=
    hL (k0, f0) (by rw [hout0]; exact List.mem_cons_self (k0, f0) orest)
  have hfinal : (some l0 :: hrvValueNames levels n : List (Option String)) =
      (levels.take (n + 1)).map some ++ [Option.none] := by
    simp [hrvValueNames, hlev]
  rw [hlev] at hout
  simp only [computeHrvDict, computeHrvCore, hlev, hout, bindOk, levelHead, hout0,
    concatFrames, hnames, hfinal]
  rw [← hlev, hfinal]

theorem computeHrvValue_deep (T : Transformers Table) (hps : List (String × PyObj Table))
    (H : ∀ x, ∃ ls, T.hrv_process x hps = .ok ls) :
    ∀ (m : Nat) (v : PyObj Table) (levels : List String),
      depthUniform v (m + 1) = true → levels.length ≤ m + 1 →
      computeHrvValue T hps v levels = .error .indexError := by
  intro m
  induction m with
  | zero =>
    intro v levels hd hlen
    obtain ⟨es, rfl, hne, hdl⟩ := depthUniform_succ hd
    have hch : ∀ kv ∈ es, ∃ rows,
        computeHrvValue T hps kv.2 (levels.drop 1) = .ok ⟨[Option.none], rows⟩ := by
      intro kv hkv
      obtain ⟨t, ht⟩ := depthUniform_zero (depthUniformList_mem hdl kv hkv)
      rw [ht]
      exact computeHrvValue_table_ok T hps H t (levels.drop 1)
    obtain ⟨out, hout, _, _⟩ :=
      computeHrvEntries_ok T hps [Option.none] es (levels.drop 1) hch
    have hld : levels.drop 1 = [] := by
      refine List.eq_nil_of_length_eq_zero ?_
      simp only [List.length_drop]
      omega
    rw [hld] at hout
    simp only [computeHrvValue, computeHrvCore, hld, hout, bindOk, levelHead, bindErr]
  | succ m ih =>
    intro v levels hd hlen
    obtain ⟨es, rfl, hne, hdl⟩ := depthUniform_succ hd
    obtain ⟨kv, rest, rfl⟩ : ∃ kv rest, es = kv :: rest := by
      cases es with
      | nil => simp at hne
      | cons a b => exact ⟨a, b, rfl⟩
    have hfirst : computeHrvValue T hps kv.2 (levels.drop 1) = .error .indexError := by
      refine ih kv.2 (levels.drop 1)
        (depthUniformList_mem hdl kv (List.mem_cons_self kv rest)) ?_
      simp only [List.length_drop]
      omega
    simp only [computeHrvValue, computeHrvCore, computeHrvEntries, hfirst, bindErr]

theorem computeHrvDict_deep (T : Transformers Table) (hps : List (String × PyObj Table))
    (H : ∀ x, ∃ ls, T.hrv_process x hps = .ok ls) (n : Nat) (d : PyObj Table)
    (levels : List String) (hd : depthUniform d (n + 1) = true)
    (hlen : levels.length ≤ n) :
    computeHrvDict T hps d levels = .error .indexError := by
  obtain ⟨es, rfl, hne, hdl⟩ := depthUniform_succ hd
  cases n with
  | zero =>
    have hch : ∀ kv ∈ es, ∃ rows,
        computeHrvValue T hps kv.2 levels = .ok ⟨[Option.none], rows⟩ := by
      intro kv hkv
      obtain ⟨t, ht⟩ := depthUniform_zero (depthUniformList_mem hdl kv hkv)
      rw [ht]
      exact computeHrvValue_table_ok T hps H t levels
    obtain ⟨out, hout, _, _⟩ := computeHrvEntries_ok T hps [Option.none] es levels hch
    have hle : levels = [] := List.eq_nil_of_length_eq_zero (by omega)
    rw [hle] at hout
    simp only [computeHrvDict, computeHrvCore, hle, hout, bindOk, levelHead, bindErr]
  | succ m =>
    obtain ⟨kv, rest, rfl⟩ : ∃ kv rest, es = kv :: rest := by
      cases es with
      | nil => simp at hne
      | cons a b => exact ⟨a, b, rfl⟩
    have hfirst : computeHrvValue T hps kv.2 levels = .error .indexError :=
      computeHrvValue_deep T hps H m kv.2 levels
        (depthUniformList_mem hdl kv (List.mem_cons_self kv rest)) (by omega)
    simp only [computeHrvDict, computeHrvCore, computeHrvEntries, hfirst, bindErr]

/-- C4: for a successful `compute_hrv_results` call (on an R-peak dictionary of
uniform nesting depth equal to the number of `dict_levels`), the recursive
assembly produces one outer index level per entry of `dict_levels` plus the
external HRV function's one artifact level; exactly that innermost artifact
level is dropped before the result is cached, so the cached dataframe's index
levels correspond exactly to `dict_levels`. -/
theorem hrv_results_index_levels (T : Transformers Table) (st : ProtocolState Table)
    (result_id : String) (study_part : Option String) (dict_levels : List String)
    (hps ps : Option (List (String × PyObj Table))) (d0 : PyObj Table)
    (h0 : dictLookup st.rpeak_data (study_part.getD "Study") = some d0)
    (hd : depthUniform d0 dict_levels.length = true)
    (hn : 1 ≤ dict_levels.length)
    (H : ∀ x, ∃ ls, T.hrv_process x (hps.getD []) = .ok ls) :
    ∃ rows, computeHrvResults T st result_id study_part false false false
        (some dict_levels) hps ps =
      .ok { st with
              hrv_results := dictInsert st.hrv_results result_id
                (.frame ⟨dict_levels.map some, rows⟩) } := by
  obtain ⟨m, hm⟩ : ∃ m, dict_levels.length = m + 1 := ⟨dict_levels.length - 1, by omega⟩
  obtain ⟨rows, hdict⟩ := computeHrvDict_uniform T (hps.getD []) H m d0 dict_levels
    (by rw [← hm]; exact hd) (by omega)
  have htake : dict_levels.take (m + 1) = dict_levels := by
    rw [← hm]
    exact List.take_length dict_levels
  rw [htake] at hdict
  have hdrop : droplevelLast ⟨dict_levels.map some ++ [Option.none], rows⟩ =
      .ok ⟨dict_levels.map some, rows.map List.dropLast⟩ := by
    rw [droplevelLast]
    rw [if_neg (by simp [hm])]
    simp [List.dropLast_concat]
  refine ⟨rows.map List.dropLast, ?_⟩
  simp [computeHrvResults, subscript, h0, bindOk, hdict, hdrop, runPipeline]

theorem hrv_results_index_levels_witness :
    dictLookup sampleState.rpeak_data ((none : Option String).getD "Study") =
      some (PyObj.dict [("s1", PyObj.dict [("p1", PyObj.table ())])]) ∧
    depthUniform (PyObj.dict [("s1", PyObj.dict [("p1", PyObj.table ())])])
      (["subject", "phase"] : List String).length = true ∧
    (∃ rows, computeHrvResults trivialTransformers sampleState "hrv" none false false false
        (some ["subject", "phase"]) none none =
      .ok { sampleState with
              hrv_results := dictInsert sampleState.hrv_results "hrv"
                (.frame ⟨(["subject", "phase"] : List String).map some, rows⟩) }) :=
  ⟨rfl, by simp [depthUniform, depthUniformList],
    hrv_results_index_levels trivialTransformers sampleState "hrv" none ["subject", "phase"]
      none none (PyObj.dict [("s1", PyObj.dict [("p1", PyObj.table ())])]) rfl
      (by simp [depthUniform, depthUniformList]) (by simp)
      (fun x => ⟨["0"], rfl⟩)⟩

/-- C5 counterexample: a `compute_hrv_results` call whose R-peak dictionary is
nested two levels deep while `dict_levels` has a single entry fails with an
`IndexError` (from `dict_levels[0]` on the exhausted name list), not with a
`ConfigurationError`; and in the other direction, a dictionary one level deep
with two `dict_levels` entries does not fail at all — the surplus level name
is simply ignored. -/
theorem hrv_depth_mismatch_counterexample :
    computeHrvResults trivialTransformers sampleState "deep" none false false false
        (some ["subject"]) none none = .error (.indexError, sampleState) ∧
    PyError.indexError ≠ PyError.configurationError ∧
    computeHrvResults trivialTransformers sampleStateFlat "shallow" none false false false
        (some ["subject", "phase"]) none none =
      .ok { sampleStateFlat with
              hrv_results := [("shallow", PyObj.frame ⟨[some "subject"], [["s1"]]⟩)] } := by
  refine ⟨?_, by decide, ?_⟩
  · simp [computeHrvResults, computeHrvDict, computeHrvCore, computeHrvEntries,
      computeHrvValue, subscript, dictLookup, trivialTransformers, sampleState, protocolInit,
      leafFrame, levelHead, concatFrames, runPipeline, bindOk, bindErr, Except.map]
  · simp [computeHrvResults, computeHrvDict, computeHrvCore, computeHrvEntries,
      computeHrvValue, subscript, dictLookup, trivialTransformers, sampleStateFlat,
      protocolInit, leafFrame, levelHead, concatFrames, droplevelLast, runPipeline, bindOk,
      dictInsert, Except.map, Function.comp, List.dropLast]

/-- C5 (amended): for every `compute_hrv_results` call in which the nesting
depth of the R-peak dictionary exceeds the length of `dict_levels`, the call
fails with an `IndexError` raised by `dict_levels[0]` once the level-name list
is exhausted (not with a `ConfigurationError`); a nesting depth smaller than
the length of `dict_levels` raises no depth-related error. -/
theorem hrv_depth_mismatch_index_error (T : Transformers Table) (st : ProtocolState Table)
    (result_id : String) (study_part : Option String) (dict_levels : List String)
    (hps ps : Option (List (String × PyObj Table))) (d0 : PyObj Table) (n : Nat)
    (h0 : dictLookup st.rpeak_data (study_part.getD "Study") = some d0)
    (hd : depthUniform d0 n = true) (hn : 1 ≤ n)
    (hlen : dict_levels.length < n)
    (H : ∀ x, ∃ ls, T.hrv_process x (hps.getD []) = .ok ls) :
    computeHrvResults T st result_id study_part false false false (some dict_levels) hps ps =
      .error (.indexError, st) := by
  obtain ⟨m, rfl⟩ : ∃ m, n = m + 1 := ⟨n - 1, by omega⟩
  have hdict := computeHrvDict_deep T (hps.getD []) H m d0 dict_levels hd (by omega)
  simp [computeHrvResults, subscript, h0, bindOk, bindErr, hdict, runPipeline]

theorem hrv_depth_mismatch_index_error_witness :
    dictLookup sampleState.rpeak_data ((none : Option String).getD "Study") =
      some (PyObj.dict [("s1", PyObj.dict [("p1", PyObj.table ())])]) ∧
    depthUniform (PyObj.dict [("s1", PyObj.dict [("p1", PyObj.table ())])]) 2 = true ∧
    (["subject"] : List String).length < 2 ∧
    computeHrvResults trivialTransformers sampleState "deep2" none false false false
        (some ["subject"]) none none = .error (.indexError, sampleState) :=
  ⟨rfl, by simp [depthUniform, depthUniformList], by simp,
    hrv_depth_mismatch_index_error trivialTransformers sampleState "deep2" none ["subject"]
      none none (PyObj.dict [("s1", PyObj.dict [("p1", PyObj.table ())])]) 2 rfl
      (by simp [depthUniform, depthUniformList]) (by omega) (by simp)
      (fun x => ⟨["0"], rfl⟩)⟩

theorem checkSampleTimesMatch_error {f : SalivaFrame} {ty : String} {ts : List Int}
    {e : PyError} (h : checkSampleTimesMatch f ty ts = .error e) :
    ∃ r ∈ f, countDiffers f ts r = true ∧ e = .validationError [ty, r.subject] := by
  rw [checkSampleTimesMatch] at h
  cases hf : List.find? (countDiffers f ts) f with
  | none => rw [hf] at h; cases h
  | some r =>
    rw [hf] at h
    refine ⟨r, List.mem_of_find?_eq_some hf, List.find?_some hf, ?_⟩
    cases h
    rfl

theorem checkSampleTimesMatch_ok {f : SalivaFrame} {ty : String} {ts : List Int}
    (h : ∀ r ∈ f, countDiffers f ts r = false) :
    checkSampleTimesMatch f ty ts = .ok () := by
  rw [checkSampleTimesMatch]
  rw [List.find?_eq_none.mpr (fun x hx => by simp [h x hx])]

theorem checkSampleTimesMatch_mismatch {f : SalivaFrame} {ty : String} {ts : List Int}
    (h : ∃ r ∈ f, countDiffers f ts r = true) :
    ∃ e, checkSampleTimesMatch f ty ts = .error e := by
  rw [checkSampleTimesMatch]
  cases hf : List.find? (countDiffers f ts) f with
  | none =>
    obtain ⟨r, hr, hcd⟩ := h
    have := List.find?_eq_none.mp hf r hr
    simp [hcd] at this
  | some r => exact ⟨_, rfl⟩

theorem addSalivaDataDict_ok :
    ∀ (data : List (String × SalivaFrame)) (times : List (String × List Int)),
      (∀ kf ∈ data, ∃ ts, dictLookup times kf.1 = some ts ∧
          ∀ r ∈ kf.2, countDiffers kf.2 ts r = false) →
      ∃ out, addSalivaDataDict data times = .ok out := by
  intro data
  induction data with
  | nil => intro times _; exact ⟨[], by simp [addSalivaDataDict]⟩
  | cons kf0 rest ih =>
    intro times hall
    obtain ⟨ts0, hts0, hok0⟩ := hall kf0 (List.mem_cons_self kf0 rest)
    obtain ⟨out, hout⟩ := ih times (fun kf h => hall kf (List.mem_cons_of_mem kf0 h))
    refine ⟨(kf0.1, kf0.2) :: out, ?_⟩
    simp [addSalivaDataDict, subscript, hts0, addSalivaDataLeaf,
      checkSampleTimesMatch_ok hok0, bindOk, hout]

theorem addSalivaDataDict_err :
    ∀ (data : List (String × SalivaFrame)) (times : List (String × List Int)),
      (∀ kf ∈ data, ∃ ts, dictLookup times kf.1 = some ts) →
      (∃ kf ∈ data, ∃ ts, dictLookup times kf.1 = some ts ∧
          ∃ r ∈ kf.2, countDiffers kf.2 ts r = true) →
      ∃ ty subj, addSalivaDataDict data times = .error (.validationError [ty, subj]) ∧
        ∃ kf ∈ data, kf.1 = ty ∧ ∃ ts, dictLookup times ty = some ts ∧
          ∃ r ∈ kf.2, r.subject = subj ∧ countDiffers kf.2 ts r = true := by
  intro data
  induction data with
  | nil =>
    intro times _ hex
    obtain ⟨kf, hmem, _⟩ := hex
    cases hmem
  | cons kf0 rest ih =>
    intro times hall hex
    obtain ⟨ts0, hts0⟩ := hall kf0 (List.mem_cons_self kf0 rest)
    cases hchk : checkSampleTimesMatch kf0.2 kf0.1 ts0 with
    | error e =>
      obtain ⟨r, hrmem, hcd, he⟩ := checkSampleTimesMatch_error hchk
      refine ⟨kf0.1, r.subject, ?_,
        kf0, List.mem_cons_self kf0 rest, rfl, ts0, hts0, r, hrmem, rfl, hcd⟩
      rw [he] at hchk
      simp [addSalivaDataDict, subscript, hts0, addSalivaDataLeaf, hchk, bindOk, bindErr]
    | ok u =>
      have hok0 : ∀ r ∈ kf0.2, countDiffers kf0.2 ts0 r = false := by
        intro r hr
        by_contra hfalse
        have hcd : countDiffers kf0.2 ts0 r = true := by
          cases hc : countDiffers kf0.2 ts0 r with
          | true => rfl
          | false => exact absurd hc hfalse
        obtain ⟨e, he⟩ := checkSampleTimesMatch_mismatch ⟨r, hr, hcd⟩
        rw [he] at hchk
        cases hchk
      have hex2 : ∃ kf ∈ rest, ∃ ts, dictLookup times kf.1 = some ts ∧
          ∃ r ∈ kf.2, countDiffers kf.2 ts r = true := by
        obtain ⟨kf, hmem, ts, hts, r, hr, hcd⟩ := hex
        rcases List.mem_cons.mp hmem with heq | hm
        · subst heq
          rw [hts0] at hts
          cases hts
          exact absurd hcd (by simp [hok0 r hr])
        · exact ⟨kf, hm, ts, hts, r, hr, hcd⟩
      obtain ⟨ty, subj, herr, kf, hkfm, h1, h2⟩ :=
        ih times (fun kf h => hall kf (List.mem_cons_of_mem kf0 h)) hex2
      refine ⟨ty, subj, ?_, kf, List.mem_cons_of_mem kf0 hkfm, h1, h2⟩
      cases u
      simp [addSalivaDataDict, subscript, hts0, addSalivaDataLeaf, hchk, bindOk, herr, bindErr]

theorem dictLookup_mem_keys {α : Type} :
    ∀ {e : List (String × α)} {k : String} {v : α},
      dictLookup e k = some v → k ∈ e.map Prod.fst := by
  intro e
  induction e with
  | nil => intro k v h; cases h
  | cons kv rest ih =>
    intro k v h
    rw [dictLookup] at h
    by_cases hk : kv.1 = k
    · simp [hk.symm]
    · rw [if_neg hk] at h
      simp [ih h]

theorem dictKeys_lookup {α : Type} :
    ∀ {e : List (String × α)} {k : String}, k ∈ e.map Prod.fst →
      ∃ v, dictLookup e k = some v := by
  intro e
  induction e with
  | nil => intro k h; cases h
  | cons kv rest ih =>
    intro k h
    by_cases hk : kv.1 = k
    · exact ⟨kv.2, by rw [dictLookup, if_pos hk]⟩
    · have hm : k ∈ rest.map Prod.fst := by
        rcases List.mem_cons.mp h with heq | hmem
        · exact absurd heq.symm hk
        · exact hmem
      obtain ⟨v, hv⟩ := ih hm
      exact ⟨v, by rw [dictLookup, if_neg hk, hv]⟩

theorem dictLookup_update_none {α : Type} :
    ∀ (e d : List (String × α)) (k : String), dictLookup e k = none →
      dictLookup (dictUpdate d e) k = dictLookup d k := by
  intro e
  induction e with
  | nil => intro d k _; rfl
  | cons kv rest ih =>
    intro d k h
    rw [dictLookup] at h
    by_cases hk : kv.1 = k
    · rw [if_pos hk] at h; cases h
    · rw [if_neg hk] at h
      have hupd : dictUpdate d (kv :: rest) = dictUpdate (dictInsert d kv.1 kv.2) rest := by
        simp [dictUpdate]
      rw [hupd, ih _ k h]
      exact dictLookup_insert_ne d kv.1 k kv.2 (fun heq => hk heq.symm)

theorem dictLookup_update_some {α : Type} :
    ∀ (e d : List (String × α)) (k : String) (v : α), (e.map Prod.fst).Nodup →
      dictLookup e k = some v → dictLookup (dictUpdate d e) k = some v := by
  intro e
  induction e with
  | nil => intro d k v _ h; cases h
  | cons kv rest ih =>
    intro d k v hnd h
    simp only [List.map_cons, List.nodup_cons] at hnd
    obtain ⟨hk0, hrest⟩ := hnd
    have hupd : dictUpdate d (kv :: rest) = dictUpdate (dictInsert d kv.1 kv.2) rest := by
      simp [dictUpdate]
    rw [dictLookup] at h
    by_cases hk : kv.1 = k
    · rw [if_pos hk] at h
      cases h
      have hnone : dictLookup rest k = none := by
        cases hr : dictLookup rest k with
        | none => rfl
        | some w => exact absurd (hk ▸ dictLookup_mem_keys hr) hk0
      rw [hupd, dictLookup_update_none rest _ k hnone]
      rw [← hk]
      exact dictLookup_insert_self d kv.1 kv.2
    · rw [if_neg hk] at h
      rw [hupd]
      exact ih _ k v hrest h

theorem getSampleTimes_keys :
    ∀ (data : List (String × SalivaFrame)) (times : List (String × Option (List Int)))
      (tt : List Int) (nts : List (String × List Int)),
      getSampleTimes data times tt = .ok nts → nts.map Prod.fst = data.map Prod.fst := by
  intro data
  induction data with
  | nil =>
    intro times tt nts h
    rw [getSampleTimes] at h
    cases h
    rfl
  | cons kf rest ih =>
    intro times tt nts h
    rw [getSampleTimes] at h
    cases hlk : dictLookup times kf.1 with
    | none =>
      rw [hlk] at h
      simp [bindErr] at h
    | some tOpt =>
      rw [hlk] at h
      simp only [bindOk] at h
      cases tOpt with
      | some ts =>
        try simp only [bindOk] at h
        obtain ⟨entries, h3, h⟩ := except_bind_ok h
        injection h with h
        subst h
        simp [ih times tt entries h3]
      | none =>
        obtain ⟨ts2, h4, h⟩ := except_bind_ok h
        try simp only [bindOk] at h
        obtain ⟨entries, h3, h⟩ := except_bind_ok h
        injection h with h
        subst h
        simp [ih times tt entries h3]

/-- C6: in every `add_saliva_data` call that reaches the validation step, when
for some saliva type and some subject the number of samples in the raw data
differs from the length of that type's (resolved) sample-time sequence, the
call raises a `ValidationError` identifying an offending saliva type and
subject; data with matching counts for every subject is accepted. -/
theorem add_saliva_sample_times_validation (Table : Type) (st : ProtocolState Table)
    (sdIn : SalivaDataIn) (styIn : SalivaTypeIn) (stimesIn : SampleTimesIn)
    (ttIn : Option (List Int)) (nts : List (String × List Int))
    (hg : getSampleTimes (resolveSdata (resolveTypes sdIn styIn) sdIn)
            (resolveStimes (resolveTypes sdIn styIn) stimesIn)
            (ttIn.getD st.test_times) = .ok nts)
    (hnd : (nts.map Prod.fst).Nodup) :
    ((∃ kf ∈ resolveSdata (resolveTypes sdIn styIn) sdIn, ∃ ts,
        dictLookup (dictUpdate st.sample_times nts) kf.1 = some ts ∧
        ∃ r ∈ kf.2, countDiffers kf.2 ts r = true) →
      ∃ ty subj stErr, addSalivaData st sdIn styIn stimesIn ttIn =
          .error (.validationError [ty, subj], stErr) ∧
        ∃ kf ∈ resolveSdata (resolveTypes sdIn styIn) sdIn, kf.1 = ty ∧
          ∃ ts, dictLookup (dictUpdate st.sample_times nts) ty = some ts ∧
            ∃ r ∈ kf.2, r.subject = subj ∧ countDiffers kf.2 ts r = true) ∧
    ((∀ kf ∈ resolveSdata (resolveTypes sdIn styIn) sdIn, ∃ ts,
        dictLookup (dictUpdate st.sample_times nts) kf.1 = some ts ∧
        ∀ r ∈ kf.2, countDiffers kf.2 ts r = false) →
      ∃ st', addSalivaData st sdIn styIn stimesIn ttIn = .ok st') := by
  have hkeys := getSampleTimes_keys _ _ _ _ hg
  constructor
  · intro hex
    have hall : ∀ kf ∈ resolveSdata (resolveTypes sdIn styIn) sdIn, ∃ ts,
        dictLookup (dictUpdate st.sample_times nts) kf.1 = some ts := by
      intro kf hkf
      have hmem : kf.1 ∈ nts.map Prod.fst := by
        rw [hkeys]
        exact List.mem_map_of_mem Prod.fst hkf
      obtain ⟨v, hv⟩ := dictKeys_lookup hmem
      exact ⟨v, dictLookup_update_some nts st.sample_times kf.1 v hnd hv⟩
    obtain ⟨ty, subj, herr, hgen⟩ := addSalivaDataDict_err _ _ hall hex
    cases ttIn with
    | none =>
      refine ⟨ty, subj,
        { st with saliva_types := resolveTypes sdIn styIn,
                  sample_times := dictUpdate st.sample_times nts }, ?_, hgen⟩
      simp only [Option.getD_none] at hg
      simp [addSalivaData, hg, herr]
    | some tt =>
      refine ⟨ty, subj,
        { st with saliva_types := resolveTypes sdIn styIn, test_times := tt,
                  sample_times := dictUpdate st.sample_times nts }, ?_, hgen⟩
      simp only [Option.getD_some] at hg
      simp [addSalivaData, hg, herr]
  · intro hok
    obtain ⟨out, hout⟩ := addSalivaDataDict_ok _ _ hok
    cases ttIn with
    | none =>
      refine ⟨{ st with saliva_types := resolveTypes sdIn styIn,
                        sample_times := dictUpdate st.sample_times nts,
                        saliva_data := dictUpdate st.saliva_data out }, ?_⟩
      simp only [Option.getD_none] at hg
      simp [addSalivaData, hg, hout]
    | some tt =>
      refine ⟨{ st with saliva_types := resolveTypes sdIn styIn, test_times := tt,
                        sample_times := dictUpdate st.sample_times nts,
                        saliva_data := dictUpdate st.saliva_data out }, ?_⟩
      simp only [Option.getD_some] at hg
      simp [addSalivaData, hg, hout]

theorem add_saliva_sample_times_validation_witness :
    getSampleTimes
        (resolveSdata (resolveTypes
            (.dictIn [("cortisol", [⟨"s1", none, 1⟩, ⟨"s1", none, 2⟩])]) (.typeList []))
          (.dictIn [("cortisol", [⟨"s1", none, 1⟩, ⟨"s1", none, 2⟩])]))
        (resolveStimes (resolveTypes
            (.dictIn [("cortisol", [⟨"s1", none, 1⟩, ⟨"s1", none, 2⟩])]) (.typeList []))
          (.timesDict [("cortisol", some [0, 10, 20])]))
        ((none : Option (List Int)).getD
          (protocolInit "Base" Json.null none : ProtocolState Unit).test_times) =
      .ok [("cortisol", [0, 10, 20])] ∧
    (([("cortisol", [0, 10, 20])] : List (String × List Int)).map Prod.fst).Nodup ∧
    (∃ ty subj stErr,
      addSalivaData (protocolInit "Base" Json.null none : ProtocolState Unit)
          (.dictIn [("cortisol", [⟨"s1", none, 1⟩, ⟨"s1", none, 2⟩])]) (.typeList [])
          (.timesDict [("cortisol", some [0, 10, 20])]) none =
        .error (.validationError [ty, subj], stErr) ∧
      ∃ kf ∈ resolveSdata (resolveTypes
          (.dictIn [("cortisol", [⟨"s1", none, 1⟩, ⟨"s1", none, 2⟩])]) (.typeList []))
          (.dictIn [("cortisol", [⟨"s1", none, 1⟩, ⟨"s1", none, 2⟩])]), kf.1 = ty ∧
        ∃ ts, dictLookup (dictUpdate
            (protocolInit "Base" Json.null none : ProtocolState Unit).sample_times
            [("cortisol", [0, 10, 20])]) ty = some ts ∧
          ∃ r ∈ kf.2, r.subject = subj ∧ countDiffers kf.2 ts r = true) :=
  ⟨rfl, by simp,
    (add_saliva_sample_times_validation Unit (protocolInit "Base" Json.null none)
        (.dictIn [("cortisol", [⟨"s1", none, 1⟩, ⟨"s1", none, 2⟩])]) (.typeList [])
        (.timesDict [("cortisol", some [0, 10, 20])]) none
        [("cortisol", [0, 10, 20])] rfl (by simp)).1
      ⟨("cortisol", [⟨"s1", none, 1⟩, ⟨"s1", none, 2⟩]), by simp [resolveTypes, resolveSdata],
        [0, 10, 20], rfl, ⟨"s1", none, 1⟩, by simp, by decide⟩⟩

/-- C10: in every `add_saliva_data` call in which the validation of the saliva
data fails (a `ValidationError` from `_add_saliva_data`), the fields
`saliva_types`, `test_times` (when a `test_times` argument was passed) and
`sample_times` have already been overwritten or updated with the new values
when the exception propagates, while `saliva_data` is untouched — a failed
call leaves the protocol object partially updated rather than unchanged. -/
theorem add_saliva_updates_before_validation_error (Table : Type)
    (st : ProtocolState Table) (sdIn : SalivaDataIn) (styIn : SalivaTypeIn)
    (stimesIn : SampleTimesIn) (ttIn : Option (List Int))
    (nts : List (String × List Int)) (info : List String)
    (hg : getSampleTimes (resolveSdata (resolveTypes sdIn styIn) sdIn)
            (resolveStimes (resolveTypes sdIn styIn) stimesIn)
            (ttIn.getD st.test_times) = .ok nts)
    (herr : addSalivaDataDict (resolveSdata (resolveTypes sdIn styIn) sdIn)
              (dictUpdate st.sample_times nts) = .error (.validationError info)) :
    ∃ stErr, addSalivaData st sdIn styIn stimesIn ttIn =
        .error (.validationError info, stErr) ∧
      stErr.saliva_types = resolveTypes sdIn styIn ∧
      stErr.test_times = ttIn.getD st.test_times ∧
      stErr.sample_times = dictUpdate st.sample_times nts ∧
      stErr.saliva_data = st.saliva_data := by
  cases ttIn with
  | none =>
    refine ⟨{ st with saliva_types := resolveTypes sdIn styIn,
                      sample_times := dictUpdate st.sample_times nts },
      ?_, rfl, rfl, rfl, rfl⟩
    simp only [Option.getD_none] at hg
    simp [addSalivaData, hg, herr]
  | some tt =>
    refine ⟨{ st with saliva_types := resolveTypes sdIn styIn, test_times := tt,
                      sample_times := dictUpdate st.sample_times nts },
      ?_, rfl, rfl, rfl, rfl⟩
    simp only [Option.getD_some] at hg
    simp [addSalivaData, hg, herr]

theorem add_saliva_updates_before_validation_error_witness :
    getSampleTimes
        (resolveSdata (resolveTypes
            (.dictIn [("cortisol", [⟨"s1", none, 1⟩, ⟨"s1", none, 2⟩])]) (.typeStr "amylase"))
          (.dictIn [("cortisol", [⟨"s1", none, 1⟩, ⟨"s1", none, 2⟩])]))
        (resolveStimes (resolveTypes
            (.dictIn [("cortisol", [⟨"s1", none, 1⟩, ⟨"s1", none, 2⟩])]) (.typeStr "amylase"))
          (.timesList [0, 10, 20]))
        ((some [5, 30] : Option (List Int)).getD
          (protocolInit "Base" Json.null none : ProtocolState Unit).test_times) =
      .ok [("cortisol", [5, 15, 25])] ∧
    addSalivaDataDict
        (resolveSdata (resolveTypes
            (.dictIn [("cortisol", [⟨"s1", none, 1⟩, ⟨"s1", none, 2⟩])]) (.typeStr "amylase"))
          (.dictIn [("cortisol", [⟨"s1", none, 1⟩, ⟨"s1", none, 2⟩])]))
        (dictUpdate (protocolInit "Base" Json.null none : ProtocolState Unit).sample_times
          [("cortisol", [5, 15, 25])]) =
      .error (.validationError ["cortisol", "s1"]) ∧
    (∃ stErr,
      addSalivaData (protocolInit "Base" Json.null none : ProtocolState Unit)
          (.dictIn [("cortisol", [⟨"s1", none, 1⟩, ⟨"s1", none, 2⟩])]) (.typeStr "amylase")
          (.timesList [0, 10, 20]) (some [5, 30]) =
        .error (.validationError ["cortisol", "s1"], stErr) ∧
      stErr.saliva_types = ["cortisol"] ∧
      stErr.test_times = [5, 30] ∧
      stErr.sample_times = [("cortisol", [5, 15, 25])] ∧
      stErr.saliva_data = [] ) :=
  ⟨rfl, rfl,
    add_saliva_updates_before_validation_error Unit (protocolInit "Base" Json.null none)
      (.dictIn [("cortisol", [⟨"s1", none, 1⟩, ⟨"s1", none, 2⟩])]) (.typeStr "amylase")
      (.timesList [0, 10, 20]) (some [5, 30]) [("cortisol", [5, 15, 25])]
      ["cortisol", "s1"] rfl rfl⟩
